import Mathlib

/-!
Verification of the lotus storage-provider window-post pipeline against its
specification.  The development shallowly embeds the Go sources:

* `chain/actors/builtin/verifreg/v10.go` — the v10 verified-registry state
  adapter (`state10` and its accessor methods);
* `provider/builder.go` — `WindowPostScheduler`, which wires up the fault
  tracker, the message sender and the two window-post tasks;
* `cmd/lotus-provider/run.go` — the task-selection block of the `run`
  command, which decides which task types a worker registers with the
  Task Engine.

Go multi-value returns `(T, error)` become Lean products with
`Option GoError` for the error position (`none` = nil error).  Side-effecting
Go callbacks (`func(...) error`) are embedded as explicit state transformers
`α → σ → σ × Option GoError`.  Components of the repository that are not part
of the snapshot (the `chainsched`, `lpwindow` and `lpmessage` packages) are
modelled from the specification; each such definition says so in its doc
comment.
-/

namespace Lotus

/-- Go `error`: `none` is the nil error, `some msg` a non-nil error. -/
abbrev GoError := String

abbrev Address := Nat

abbrev AllocationId := Nat

abbrev ClaimId := Nat

/-- `abi.StoragePower` is a big integer. -/
abbrev StoragePower := Int

/-- `verifreg9.Allocation` (go-state-types): the fields of an allocation
record; the adapter never inspects them, it only passes them through. -/
structure Allocation where
  client : Address
  provider : Address
  size : Nat
  termMin : Int
  termMax : Int
  expiration : Int
deriving DecidableEq, Repr

/-- `verifreg9.Claim` (go-state-types). -/
structure Claim where
  provider : Address
  client : Address
  size : Nat
  termMin : Int
  termMax : Int
  termStart : Int
  sector : Nat
deriving DecidableEq, Repr

/-- `state10` from `chain/actors/builtin/verifreg/v10.go`: the embedded
`verifreg10.State` together with its `adt.Store`-backed collections, with the
store-resident HAMTs rendered as association lists (loads succeed on the
embedded data). -/
structure State10 where
  /-- `s.State.RootKey` -/
  rootKeyAddr : Address
  /-- the verifiers datacap map (`s.Verifiers` HAMT) -/
  verifiers : List (Address × StoragePower)
  /-- the allocations map, keyed by client address and allocation id -/
  allocations : List ((Address × AllocationId) × Allocation)
  /-- the claims map, keyed by provider address and claim id -/
  claims : List ((Address × ClaimId) × Claim)
deriving DecidableEq, Repr

/-- The error message produced by the v10 adapter's unsupported accessors. -/
def unsupportedV10 : GoError := "unsupported in actors v10"

/-- `(s *state10) RootKey()`: `return s.State.RootKey, nil`. -/
def State10.RootKey (s : State10) : Address × Option GoError :=
  (s.rootKeyAddr, none)

/-- `(s *state10) VerifiedClientDataCap(addr)`:
`return false, big.Zero(), xerrors.Errorf("unsupported in actors v10")`. -/
def State10.VerifiedClientDataCap (_s : State10) (_addr : Address) :
    Bool × StoragePower × Option GoError :=
  (false, 0, some unsupportedV10)

/-- Modelled from the spec: `forEachCap`
(`chain/actors/builtin/verifreg/util.go`, not in the snapshot) iterates a
datacap map, invoking the callback on each entry and stopping at the first
callback error.  The callback's closure state is threaded explicitly. -/
def forEachCap {σ : Type} (entries : List (Address × StoragePower))
    (cb : Address → StoragePower → σ → σ × Option GoError) (acc : σ) :
    σ × Option GoError :=
  match entries with
  | [] => (acc, none)
  | (a, d) :: rest =>
    match cb a d acc with
    | (acc1, none) => forEachCap rest cb acc1
    | (acc1, some e) => (acc1, some e)

/-- `(s *state10) ForEachVerifier(cb)`:
`return forEachCap(s.store, actors.Version10, s.verifiers, cb)`. -/
def State10.ForEachVerifier {σ : Type} (s : State10)
    (cb : Address → StoragePower → σ → σ × Option GoError) (acc : σ) :
    σ × Option GoError :=
  forEachCap s.verifiers cb acc

/-- `(s *state10) ForEachClient(cb)`:
`return xerrors.Errorf("unsupported in actors v10")` — the callback is never
invoked, so the threaded state comes back unchanged. -/
def State10.ForEachClient {σ : Type} (_s : State10)
    (_cb : Address → StoragePower → σ → σ × Option GoError) (acc : σ) :
    σ × Option GoError :=
  (acc, some unsupportedV10)

/-- Lookup in the embedded allocations map. -/
def allocLookup (s : State10) (clientIdAddr : Address)
    (allocationId : AllocationId) : Option Allocation :=
  (s.allocations.find? (fun e => e.1 == (clientIdAddr, allocationId))).map
    Prod.snd

/-- Lookup in the embedded claims map. -/
def claimLookup (s : State10) (providerIdAddr : Address) (claimId : ClaimId) :
    Option Claim :=
  (s.claims.find? (fun e => e.1 == (providerIdAddr, claimId))).map Prod.snd

/-- `verifreg10.State.FindAllocation` (go-state-types library call), over the
embedded data: returns the allocation when present, `found=false` with a nil
error when absent. -/
def State10.FindAllocation (s : State10) (clientIdAddr : Address)
    (allocationId : AllocationId) :
    Option Allocation × Bool × Option GoError :=
  match allocLookup s clientIdAddr allocationId with
  | some a => (some a, true, none)
  | none => (none, false, none)

/-- `verifreg10.State.FindClaim` (go-state-types library call), over the
embedded data. -/
def State10.FindClaim (s : State10) (providerIdAddr : Address)
    (claimId : ClaimId) : Option Claim × Bool × Option GoError :=
  match claimLookup s providerIdAddr claimId with
  | some c => (some c, true, none)
  | none => (none, false, none)

/-- `(s *state10) GetAllocation(clientIdAddr, allocationId)`:
`return s.FindAllocation(s.store, clientIdAddr, allocationId)`. -/
def State10.GetAllocation (s : State10) (clientIdAddr : Address)
    (allocationId : AllocationId) :
    Option Allocation × Bool × Option GoError :=
  s.FindAllocation clientIdAddr allocationId

/-- `(s *state10) GetClaim(providerIdAddr, claimId)`:
`return s.FindClaim(s.store, providerIdAddr, claimId)`. -/
def State10.GetClaim (s : State10) (providerIdAddr : Address)
    (claimId : ClaimId) : Option Claim × Bool × Option GoError :=
  s.FindClaim providerIdAddr claimId

/-! ## `provider/builder.go` — `WindowPostScheduler` -/

abbrev PathsStore := Nat

abbrev SectorIndex := Nat

abbrev MinerAddress := Nat

/-- `types.BigInt` token amounts (attoFIL). -/
abbrev TokenAmount := Int

/-- `config.LotusProviderFees`: only `MaxWindowPoStGasFee` is consumed by
`WindowPostScheduler`. -/
structure LotusProviderFees where
  maxWindowPoStGasFee : TokenAmount
deriving DecidableEq, Repr

/-- `config.ProvingConfig`: the proving tunables the builder receives and —
per the `// todo config` comment in the source — does not consult when
building the fault tracker. -/
structure ProvingConfig where
  parallelCheckLimit : Int
  singleCheckTimeout : Nat
  partitionCheckTimeout : Nat
deriving DecidableEq, Repr

/-- `time.Second` in nanoseconds (Go `time.Duration` is an int64 nanosecond
count). -/
def timeSecond : Nat := 1000000000

/-- Modelled from the spec: the fault tracker value
(`lpwindow.NewSimpleFaultTracker`, not in the snapshot) records its storage
handles, parallelism bound, per-probe timeout and health-cache TTL. -/
structure SimpleFaultTracker where
  stor : PathsStore
  idx : SectorIndex
  parallelCheckLimit : Nat
  probeTimeout : Nat
  cacheTTL : Nat
deriving DecidableEq, Repr

/-- Modelled from the spec: `NewSimpleFaultTracker(stor, idx, parallel,
probeTimeout, cacheTTL)` packs its arguments into the tracker. -/
def NewSimpleFaultTracker (stor : PathsStore) (idx : SectorIndex)
    (parallel probe ttl : Nat) : SimpleFaultTracker :=
  ⟨stor, idx, parallel, probe, ttl⟩

/-- The arguments of `lpwindow.NewWdPostTask` that the claims are about:
the fault tracker, the miner addresses and the max concurrent task bound. -/
structure WdPostTaskParams where
  faultTracker : SimpleFaultTracker
  maddrs : List MinerAddress
  maxTasks : Int
deriving DecidableEq, Repr

/-- Modelled from the spec: the Proof Compute Task value
(`lpwindow.WdPostTask`, not in the snapshot) stores its construction
parameters. -/
structure WdPostTask where
  params : WdPostTaskParams
deriving DecidableEq, Repr

/-- The arguments of `lpwindow.NewWdPostSubmitTask` that the claims are
about: the fee ceiling. -/
structure WdPostSubmitTaskParams where
  maxWindowPoStGasFee : TokenAmount
deriving DecidableEq, Repr

/-- Modelled from the spec: the Proof Submit Task value
(`lpwindow.WdPostSubmitTask`, not in the snapshot) stores its construction
parameters. -/
structure WdPostSubmitTask where
  params : WdPostSubmitTaskParams
deriving DecidableEq, Repr

/-- Modelled from the spec: `lpwindow.NewWdPostTask` (not in the snapshot)
stores its parameters in the task.  Its failure cases depend on the
environment, so `WindowPostScheduler` below is parameterized over the
constructor; this is the canonical non-failing instantiation. -/
def NewWdPostTask (p : WdPostTaskParams) : Except GoError WdPostTask :=
  .ok ⟨p⟩

/-- Modelled from the spec: `lpwindow.NewWdPostSubmitTask` (not in the
snapshot), canonical non-failing instantiation. -/
def NewWdPostSubmitTask (p : WdPostSubmitTaskParams) :
    Except GoError WdPostSubmitTask :=
  .ok ⟨p⟩

/-- The observable outcome of one `WindowPostScheduler` call: the two
returned task pointers (`none` = Go nil), the returned error, and how many
times `go chainSched.Run(ctx)` was launched during the call. -/
structure SchedulerResult where
  computeTask : Option WdPostTask
  submitTask : Option WdPostSubmitTask
  err : Option GoError
  schedRunsStarted : Nat
deriving DecidableEq, Repr

/-- `WindowPostScheduler` from `provider/builder.go`: builds the fault
tracker with the fixed constants `32`, `5*time.Second`, `300*time.Second`
(ignoring `pc`), then `NewWdPostTask(db, api, ft, lw, verif, chainSched,
maddr, max)`, returning `(nil, nil, err)` on failure; then
`NewWdPostSubmitTask(chainSched, sender, db, api, fc.MaxWindowPoStGasFee,
as)`, returning `(nil, nil, err)` on failure; finally launches
`go chainSched.Run(ctx)` and returns both tasks with a nil error.  The two
`lpwindow` constructors are taken as parameters because their bodies are not
in the snapshot. -/
def WindowPostScheduler (fc : LotusProviderFees) (_pc : ProvingConfig)
    (stor : PathsStore) (idx : SectorIndex) (maddr : List MinerAddress)
    (max : Int) (mkWdPostTask : WdPostTaskParams → Except GoError WdPostTask)
    (mkWdPostSubmitTask :
      WdPostSubmitTaskParams → Except GoError WdPostSubmitTask) :
    SchedulerResult :=
  let ft := NewSimpleFaultTracker stor idx 32 (5 * timeSecond)
    (300 * timeSecond)
  match mkWdPostTask ⟨ft, maddr, max⟩ with
  | .error e => ⟨none, none, some e, 0⟩
  | .ok computeTask =>
    match mkWdPostSubmitTask ⟨fc.maxWindowPoStGasFee⟩ with
    | .error e => ⟨none, none, some e, 0⟩
    | .ok submitTask => ⟨some computeTask, some submitTask, none, 1⟩

/-! ## Proof Submit Task execution under the fee ceiling -/

/-- Modelled from the spec: a candidate sender address as the Address
Selector sees it — its balance and the fee the pending submission would cost
when sent from it. -/
structure SenderCandidate where
  addr : Address
  balance : TokenAmount
  requiredFee : TokenAmount
deriving DecidableEq, Repr

/-- A candidate can afford the submission iff its fee fits both under the
ceiling and within its balance. -/
def canAfford (ceiling : TokenAmount) (s : SenderCandidate) : Bool :=
  decide (s.requiredFee ≤ ceiling) && decide (s.requiredFee ≤ s.balance)

/-- Outcome of one Proof Submit Task execution: the sender the transaction
was handed to the Message Sender from (`none` = nothing submitted), the
terminal-failure flag and the alert flag. -/
structure SubmitOutcome where
  sentFrom : Option Address
  failedTerminal : Bool
  alerted : Bool
deriving DecidableEq, Repr

/-- Modelled from the spec: the Proof Submit Task's sender selection under
the fee ceiling (`lpwindow` submit task and Address Selector, not in the
snapshot): choose an affordable sender and hand the transaction to the
Message Sender; when no sender is affordable under the task's configured
`MaxWindowPoStGasFee`, fail immediately and terminally, raise an alert, and
submit nothing. -/
def wdPostSubmitExecute (t : WdPostSubmitTask)
    (cands : List SenderCandidate) : SubmitOutcome :=
  match cands.find? (canAfford t.params.maxWindowPoStGasFee) with
  | some s => ⟨some s.addr, false, false⟩
  | none => ⟨none, true, true⟩

/-! ## `cmd/lotus-provider/run.go` — task selection -/

/-- The task types the run command may register with the Task Engine. -/
inductive TaskKind where
  | wdPost
  | wdPostSubmit
  | wdPostRecover
  | winPost
deriving DecidableEq, Repr

/-- The window-post task types: the three values the task-selection block
destructures from the `WindowPostScheduler` call. -/
def TaskKind.isWindowPost : TaskKind → Bool
  | .wdPost => true
  | .wdPostSubmit => true
  | .wdPostRecover => true
  | .winPost => false

/-- The subsystem switches of the provider configuration consumed by the
task-selection block of `runCmd.Action`. -/
structure ProviderSubsystemsConfig where
  enableWindowPost : Bool
  windowPostMaxTasks : Int
  enableWinningPost : Bool
  winningPostMaxTasks : Int
deriving DecidableEq, Repr

/-- The task-selection block of `runCmd.Action`
(`cmd/lotus-provider/run.go`): when `EnableWindowPost` is set it appends the
three values it destructures from the `WindowPostScheduler` call —
`wdPostTask`, `wdPoStSubmitTask` and `derlareRecoverTask` — and when
`EnableWinningPost` is set it appends the winning-post task. -/
def activeTasks (cfg : ProviderSubsystemsConfig) : List TaskKind :=
  (if cfg.enableWindowPost then
    [TaskKind.wdPost, TaskKind.wdPostSubmit, TaskKind.wdPostRecover]
  else []) ++
  (if cfg.enableWinningPost then [TaskKind.winPost] else [])

/-- The `WindowPostScheduler` call as `runCmd.Action` makes it: the max
concurrent task bound is `cfg.Subsystems.WindowPostMaxTasks`. -/
def runCmdWindowPost (cfg : ProviderSubsystemsConfig)
    (fc : LotusProviderFees) (pc : ProvingConfig) (stor : PathsStore)
    (idx : SectorIndex) (maddr : List MinerAddress) : SchedulerResult :=
  WindowPostScheduler fc pc stor idx maddr cfg.windowPostMaxTasks
    NewWdPostTask NewWdPostSubmitTask

/-! ## `provider/chainsched` — modelled from the spec -/

/-- An identifier for the chain head (tipset) at a given height. -/
abbrev ChainHead := Nat

/-- Modelled from the spec: the Chain Epoch Cursor — the last chain height
for which callbacks have fired. -/
structure SchedCursor where
  lastFired : Nat
deriving DecidableEq, Repr

/-- The epochs newly finalized strictly above the cursor up to `fin`, in
ascending order. -/
def firedSpan (cursor fin : Nat) : List Nat :=
  (List.range (fin - cursor)).map (fun i => cursor + 1 + i)

/-- Modelled from the spec: one Chain Scheduler step (`chainsched`, not in
the snapshot).  A head notification at height `headHeight` finalizes epochs
up to `headHeight - lag`; each newly finalized epoch above the cursor fires
once, in ascending order, paired with the chain head as of that epoch
(`headAt`), and the cursor advances to the finalized height. -/
def schedStep (headAt : Nat → ChainHead) (lag : Nat) (st : SchedCursor)
    (headHeight : Nat) : SchedCursor × List (Nat × ChainHead) :=
  let fin := headHeight - lag
  (⟨Nat.max st.lastFired fin⟩,
    (firedSpan st.lastFired fin).map (fun e => (e, headAt e)))

/-- Modelled from the spec: reorg handling — on a reorg with common ancestor
height `ancestor`, every already-fired epoch strictly above the ancestor is
unfired again, by moving the cursor down to the ancestor. -/
def schedReorg (st : SchedCursor) (ancestor : Nat) : SchedCursor :=
  ⟨Nat.min st.lastFired ancestor⟩

/-- Modelled from the spec: processing a stream of head notifications in
order, concatenating the fired callback invocations. -/
def schedRun (headAt : Nat → ChainHead) (lag : Nat) :
    SchedCursor → List Nat → SchedCursor × List (Nat × ChainHead)
  | st, [] => (st, [])
  | st, h :: hs =>
    let stepped := schedStep headAt lag st h
    let rest := schedRun headAt lag stepped.1 hs
    (rest.1, stepped.2 ++ rest.2)

end Lotus

namespace Lotus

/-! ## Claims -/

/-- C1: on every v10 verified-registry state, the accessors with no v10
equivalent return the explicit "unsupported in actors v10" error:
`VerifiedClientDataCap` returns `found=false` and zero power together with
the error, and `ForEachClient` returns the error without ever invoking its
callback (the threaded callback state comes back exactly as it went in, for
every callback). -/
theorem c1_unsupported_accessors_error (s : State10) (addr : Address)
    {σ : Type} (cb : Address → StoragePower → σ → σ × Option GoError)
    (acc : σ) :
    s.VerifiedClientDataCap addr = (false, 0, some unsupportedV10) ∧
    (s.ForEachClient cb acc).1 = acc ∧
    (s.ForEachClient cb acc).2 = some unsupportedV10 := by
  refine ⟨rfl, rfl, rfl⟩

/-- C10: on every loaded v10 state, `RootKey` returns the embedded state's
root-key address with a nil error — it never fails, unlike
`VerifiedClientDataCap` of the same interface, which always errors. -/
theorem c10_rootkey_never_fails (s : State10) :
    s.RootKey = (s.rootKeyAddr, none) ∧
    (s.RootKey).2 = none ∧
    ∀ addr : Address, (s.VerifiedClientDataCap addr).2.2 ≠ none := by
  refine ⟨rfl, rfl, fun addr h => ?_⟩
  simp [State10.VerifiedClientDataCap] at h

/-- `forEachCap` errors only when the callback does: if every callback call
returns a nil error, the iteration returns a nil error. -/
theorem forEachCap_no_cb_error {σ : Type}
    (entries : List (Address × StoragePower))
    (cb : Address → StoragePower → σ → σ × Option GoError)
    (hcb : ∀ a d st, (cb a d st).2 = none) (acc : σ) :
    (forEachCap entries cb acc).2 = none := by
  induction entries generalizing acc with
  | nil => rfl
  | cons hd tl ih =>
    obtain ⟨a, d⟩ := hd
    have h := hcb a d acc
    unfold forEachCap
    rcases hm : cb a d acc with ⟨acc1, err⟩
    rw [hm] at h
    simp at h
    subst h
    exact ih acc1

/-- Any error `forEachCap` returns was produced by the callback. -/
theorem forEachCap_error_from_cb {σ : Type}
    (entries : List (Address × StoragePower))
    (cb : Address → StoragePower → σ → σ × Option GoError) (acc : σ)
    (e : GoError) (he : (forEachCap entries cb acc).2 = some e) :
    ∃ a d st, (cb a d st).2 = some e := by
  induction entries generalizing acc with
  | nil => simp [forEachCap] at he
  | cons hd tl ih =>
    obtain ⟨a, d⟩ := hd
    unfold forEachCap at he
    rcases hm : cb a d acc with ⟨acc1, err⟩
    rw [hm] at he
    cases err with
    | none => exact ih acc1 he
    | some e0 =>
      simp at he
      exact ⟨a, d, acc, by rw [hm, he]⟩

/-- C3: the v10 accessors the core consumes are supported.  `GetAllocation`
and `GetClaim` return exactly the result of the underlying v10 lookup
(`FindAllocation` / `FindClaim`) with a nil error — `found=true` and the
record when the id is present, `found=false` when absent — and
`ForEachVerifier` iterates the verifiers map and returns a nil error whenever
the callback never errors; none of the three ever produces the
"unsupported in actors v10" error. -/
theorem c3_supported_accessors (s : State10) (client provider : Address)
    (aid : AllocationId) (cid : ClaimId) {σ : Type}
    (cb : Address → StoragePower → σ → σ × Option GoError) (acc : σ)
    (hcb : ∀ a d st, (cb a d st).2 = none) :
    s.GetAllocation client aid = s.FindAllocation client aid ∧
    (s.GetAllocation client aid).1 = allocLookup s client aid ∧
    ((s.GetAllocation client aid).2.1 = true ↔
      (allocLookup s client aid).isSome = true) ∧
    (s.GetAllocation client aid).2.2 = none ∧
    s.GetClaim provider cid = s.FindClaim provider cid ∧
    (s.GetClaim provider cid).1 = claimLookup s provider cid ∧
    ((s.GetClaim provider cid).2.1 = true ↔
      (claimLookup s provider cid).isSome = true) ∧
    (s.GetClaim provider cid).2.2 = none ∧
    (s.ForEachVerifier cb acc).2 = none := by
  refine ⟨rfl, ?_, ?_, ?_, rfl, ?_, ?_, ?_, ?_⟩
  · unfold State10.GetAllocation State10.FindAllocation
    cases h : allocLookup s client aid <;> simp [h]
  · unfold State10.GetAllocation State10.FindAllocation
    cases h : allocLookup s client aid <;> simp [h]
  · unfold State10.GetAllocation State10.FindAllocation
    cases h : allocLookup s client aid <;> simp [h]
  · unfold State10.GetClaim State10.FindClaim
    cases h : claimLookup s provider cid <;> simp [h]
  · unfold State10.GetClaim State10.FindClaim
    cases h : claimLookup s provider cid <;> simp [h]
  · unfold State10.GetClaim State10.FindClaim
    cases h : claimLookup s provider cid <;> simp [h]
  · exact forEachCap_no_cb_error s.verifiers cb hcb acc

/-- Witness for C3 at a concrete state: one allocation present, the claim id
absent, a no-op callback. -/
theorem c3_supported_accessors_witness :
    ((⟨7, [(1, 5)], [((2, 3), ⟨2, 9, 32, 0, 10, 20⟩)], []⟩ :
        State10).GetAllocation 2 3).2.1 = true ∧
    ((⟨7, [(1, 5)], [((2, 3), ⟨2, 9, 32, 0, 10, 20⟩)], []⟩ :
        State10).GetClaim 9 4).2.1 = false ∧
    ((⟨7, [(1, 5)], [((2, 3), ⟨2, 9, 32, 0, 10, 20⟩)], []⟩ :
        State10).ForEachVerifier (fun a _ st => (st + a, none)) 0).2 =
      none := by
  have h := c3_supported_accessors
    (⟨7, [(1, 5)], [((2, 3), ⟨2, 9, 32, 0, 10, 20⟩)], []⟩ : State10)
    2 9 3 4 (σ := Nat) (fun a _ st => (st + a, none)) 0
    (fun _ _ _ => rfl)
  refine ⟨h.2.2.1.mpr (by decide), ?_, h.2.2.2.2.2.2.2.2⟩
  have h2 := h.2.2.2.2.2.2.1
  have hl : claimLookup
      (⟨7, [(1, 5)], [((2, 3), ⟨2, 9, 32, 0, 10, 20⟩)], []⟩ : State10)
      9 4 = none := by decide
  rcases hfound :
      ((⟨7, [(1, 5)], [((2, 3), ⟨2, 9, 32, 0, 10, 20⟩)], []⟩ :
        State10).GetClaim 9 4).2.1 with _ | _
  · rfl
  · have := h2.mp hfound
    rw [hl] at this
    simp at this

/-- C6: the fault tracker `WindowPostScheduler` hands to the Proof Compute
Task carries the fixed constants `5*time.Second` as probe timeout and
`300*time.Second` as cache TTL — both positive, hence every reachability
check is bounded-time and every cached entry expires — and the result of the
call does not depend on the `ProvingConfig` argument at all. -/
theorem c6_fault_tracker_bounded (fc : LotusProviderFees)
    (pc pc' : ProvingConfig) (stor : PathsStore) (idx : SectorIndex)
    (maddr : List MinerAddress) (max : Int) (t : WdPostTask)
    (h : (WindowPostScheduler fc pc stor idx maddr max NewWdPostTask
      NewWdPostSubmitTask).computeTask = some t) :
    t.params.faultTracker.probeTimeout = 5 * timeSecond ∧
    t.params.faultTracker.cacheTTL = 300 * timeSecond ∧
    0 < t.params.faultTracker.probeTimeout ∧
    0 < t.params.faultTracker.cacheTTL ∧
    WindowPostScheduler fc pc stor idx maddr max NewWdPostTask
      NewWdPostSubmitTask =
    WindowPostScheduler fc pc' stor idx maddr max NewWdPostTask
      NewWdPostSubmitTask := by
  have ht : t = ⟨⟨NewSimpleFaultTracker stor idx 32 (5 * timeSecond)
      (300 * timeSecond), maddr, max⟩⟩ := by
    simp [WindowPostScheduler, NewWdPostTask, NewWdPostSubmitTask] at h
    exact h.symm
  subst ht
  refine ⟨rfl, rfl, ?_, ?_, rfl⟩
  · norm_num [NewSimpleFaultTracker, timeSecond]
  · norm_num [NewSimpleFaultTracker, timeSecond]

/-- Witness for C6 at concrete inputs. -/
theorem c6_fault_tracker_bounded_witness :
    (⟨⟨⟨0, 0, 32, 5 * timeSecond, 300 * timeSecond⟩, [], 3⟩⟩ :
      WdPostTask).params.faultTracker.probeTimeout = 5 * timeSecond ∧
    (⟨⟨⟨0, 0, 32, 5 * timeSecond, 300 * timeSecond⟩, [], 3⟩⟩ :
      WdPostTask).params.faultTracker.cacheTTL = 300 * timeSecond :=
  let h := c6_fault_tracker_bounded ⟨100⟩ ⟨0, 0, 0⟩ ⟨1, 2, 3⟩ 0 0 [] 3
    ⟨⟨⟨0, 0, 32, 5 * timeSecond, 300 * timeSecond⟩, [], 3⟩⟩ rfl
  ⟨h.1, h.2.1⟩

/-- C7: the max concurrent task bound handed to the Proof Compute Task is
the caller's configuration value unchanged: a direct `WindowPostScheduler`
call passes `max` through, and the `runCmd.Action` call passes
`cfg.Subsystems.WindowPostMaxTasks` through. -/
theorem c7_max_tasks_unchanged (cfg : ProviderSubsystemsConfig)
    (fc : LotusProviderFees) (pc : ProvingConfig) (stor : PathsStore)
    (idx : SectorIndex) (maddr : List MinerAddress) (max : Int)
    (t t' : WdPostTask)
    (h : (WindowPostScheduler fc pc stor idx maddr max NewWdPostTask
      NewWdPostSubmitTask).computeTask = some t)
    (h2 : (runCmdWindowPost cfg fc pc stor idx maddr).computeTask = some t') :
    t.params.maxTasks = max ∧
    t'.params.maxTasks = cfg.windowPostMaxTasks := by
  have ht : t = ⟨⟨NewSimpleFaultTracker stor idx 32 (5 * timeSecond)
      (300 * timeSecond), maddr, max⟩⟩ := by
    simp [WindowPostScheduler, NewWdPostTask, NewWdPostSubmitTask] at h
    exact h.symm
  have ht' : t' = ⟨⟨NewSimpleFaultTracker stor idx 32 (5 * timeSecond)
      (300 * timeSecond), maddr, cfg.windowPostMaxTasks⟩⟩ := by
    simp [runCmdWindowPost, WindowPostScheduler, NewWdPostTask,
      NewWdPostSubmitTask] at h2
    exact h2.symm
  subst ht
  subst ht'
  exact ⟨rfl, rfl⟩

/-- Witness for C7 at concrete inputs: bound 7 via the direct call, bound 4
via the run-command configuration. -/
theorem c7_max_tasks_unchanged_witness :
    (⟨⟨⟨0, 0, 32, 5 * timeSecond, 300 * timeSecond⟩, [], 7⟩⟩ :
      WdPostTask).params.maxTasks = 7 ∧
    (⟨⟨⟨0, 0, 32, 5 * timeSecond, 300 * timeSecond⟩, [], 4⟩⟩ :
      WdPostTask).params.maxTasks =
      (⟨true, 4, false, 0⟩ : ProviderSubsystemsConfig).windowPostMaxTasks :=
  c7_max_tasks_unchanged ⟨true, 4, false, 0⟩ ⟨100⟩ ⟨0, 0, 0⟩ 0 0 [] 7
    ⟨⟨⟨0, 0, 32, 5 * timeSecond, 300 * timeSecond⟩, [], 7⟩⟩
    ⟨⟨⟨0, 0, 32, 5 * timeSecond, 300 * timeSecond⟩, [], 4⟩⟩ rfl rfl

/-- C9: when the Proof Compute Task constructor fails, `WindowPostScheduler`
returns `(nil, nil, that error)` with the scheduler loop never started, and
the result does not depend on the submit-task constructor at all (the Proof
Submit Task is not constructed); in general the chain scheduler loop is
started exactly once when and only when both task constructions succeed
(equivalently, when the returned error is nil), and never more than once. -/
theorem c9_compute_failure_short_circuits (fc : LotusProviderFees)
    (pc : ProvingConfig) (stor : PathsStore) (idx : SectorIndex)
    (maddr : List MinerAddress) (max : Int)
    (mkT : WdPostTaskParams → Except GoError WdPostTask)
    (mkS mkS' : WdPostSubmitTaskParams → Except GoError WdPostSubmitTask)
    (e : GoError)
    (he : mkT ⟨NewSimpleFaultTracker stor idx 32 (5 * timeSecond)
      (300 * timeSecond), maddr, max⟩ = .error e) :
    WindowPostScheduler fc pc stor idx maddr max mkT mkS =
      ⟨none, none, some e, 0⟩ ∧
    WindowPostScheduler fc pc stor idx maddr max mkT mkS =
      WindowPostScheduler fc pc stor idx maddr max mkT mkS' ∧
    ∀ (mkT2 : WdPostTaskParams → Except GoError WdPostTask)
      (mkS2 : WdPostSubmitTaskParams → Except GoError WdPostSubmitTask),
      ((WindowPostScheduler fc pc stor idx maddr max mkT2
          mkS2).schedRunsStarted = 1 ↔
        (WindowPostScheduler fc pc stor idx maddr max mkT2
          mkS2).computeTask.isSome = true ∧
        (WindowPostScheduler fc pc stor idx maddr max mkT2
          mkS2).submitTask.isSome = true) ∧
      ((WindowPostScheduler fc pc stor idx maddr max mkT2
          mkS2).err = none ↔
        (WindowPostScheduler fc pc stor idx maddr max mkT2
          mkS2).schedRunsStarted = 1) ∧
      (WindowPostScheduler fc pc stor idx maddr max mkT2
        mkS2).schedRunsStarted ≤ 1 := by
  refine ⟨by simp [WindowPostScheduler, he], by simp [WindowPostScheduler, he],
    fun mkT2 mkS2 => ?_⟩
  rcases h1 : mkT2 ⟨NewSimpleFaultTracker stor idx 32 (5 * timeSecond)
      (300 * timeSecond), maddr, max⟩ with e1 | t1
  · simp [WindowPostScheduler, h1]
  · rcases h2 : mkS2 ⟨fc.maxWindowPoStGasFee⟩ with e2 | t2
    · simp [WindowPostScheduler, h1, h2]
    · simp [WindowPostScheduler, h1, h2]

/-- Witness for C9: a compute constructor that fails with "boom". -/
theorem c9_compute_failure_short_circuits_witness :
    WindowPostScheduler ⟨100⟩ ⟨0, 0, 0⟩ 0 0 [] 3
      (fun _ => Except.error "boom") NewWdPostSubmitTask =
      ⟨none, none, some "boom", 0⟩ :=
  (c9_compute_failure_short_circuits ⟨100⟩ ⟨0, 0, 0⟩ 0 0 [] 3
    (fun _ => Except.error "boom") NewWdPostSubmitTask NewWdPostSubmitTask
    "boom" rfl).1

/-- C4: the Proof Submit Task is constructed with exactly the configured
`MaxWindowPoStGasFee` as its fee ceiling, and the ceiling is a hard cap:
when no sender candidate can afford the transaction under that ceiling, the
task execution fails immediately and terminally with an alert, handing no
transaction to the Message Sender. -/
theorem c4_fee_ceiling_hard_cap (fc : LotusProviderFees) (pc : ProvingConfig)
    (stor : PathsStore) (idx : SectorIndex) (maddr : List MinerAddress)
    (max : Int) (t : WdPostSubmitTask) (cands : List SenderCandidate)
    (ht : (WindowPostScheduler fc pc stor idx maddr max NewWdPostTask
      NewWdPostSubmitTask).submitTask = some t)
    (hun : ∀ s ∈ cands, canAfford fc.maxWindowPoStGasFee s = false) :
    t.params.maxWindowPoStGasFee = fc.maxWindowPoStGasFee ∧
    wdPostSubmitExecute t cands = ⟨none, true, true⟩ := by
  have hteq : t = ⟨⟨fc.maxWindowPoStGasFee⟩⟩ := by
    simp [WindowPostScheduler, NewWdPostTask, NewWdPostSubmitTask] at ht
    exact ht.symm
  subst hteq
  refine ⟨rfl, ?_⟩
  unfold wdPostSubmitExecute
  have hnone : cands.find? (canAfford fc.maxWindowPoStGasFee) = none := by
    rw [List.find?_eq_none]
    intro x hx
    rw [hun x hx]
    simp
  rw [hnone]

/-- Witness for C4: ceiling 100, a single funded sender whose transaction
would cost 150 — unaffordable, so the task fails with an alert and submits
nothing. -/
theorem c4_fee_ceiling_hard_cap_witness :
    wdPostSubmitExecute ⟨⟨100⟩⟩ [⟨1, 1000, 150⟩] = ⟨none, true, true⟩ :=
  (c4_fee_ceiling_hard_cap ⟨100⟩ ⟨0, 0, 0⟩ 0 0 [] 3 ⟨⟨100⟩⟩ [⟨1, 1000, 150⟩]
    rfl (by decide)).2

/-- C2 counterexample: with window post enabled, the task list the run
command registers contains a third window-post task — the recovery
declaration task destructured from the `WindowPostScheduler` call — beyond
the compute and submit tasks, so "no other window-post task" fails. -/
theorem c2_counterexample :
    TaskKind.wdPostRecover ∈
      activeTasks ⟨true, 3, false, 0⟩ ∧
    TaskKind.isWindowPost TaskKind.wdPostRecover = true ∧
    TaskKind.wdPostRecover ≠ TaskKind.wdPost ∧
    TaskKind.wdPostRecover ≠ TaskKind.wdPostSubmit := by
  decide

/-- C2 (amended): `WindowPostScheduler` constructs and returns exactly the
two proving task types (compute and submit, with a nil error), and when
window post is enabled the worker registers both with the Task Engine
together with one further window-post task — the recovery-declaration task
destructured from the same call; no window-post task is registered when the
subsystem is disabled. -/
theorem c2_amended_two_tasks_plus_recovery (fc : LotusProviderFees)
    (pc : ProvingConfig) (stor : PathsStore) (idx : SectorIndex)
    (maddr : List MinerAddress) (max : Int)
    (cfg : ProviderSubsystemsConfig) :
    (WindowPostScheduler fc pc stor idx maddr max NewWdPostTask
        NewWdPostSubmitTask).computeTask =
      some ⟨⟨NewSimpleFaultTracker stor idx 32 (5 * timeSecond)
        (300 * timeSecond), maddr, max⟩⟩ ∧
    (WindowPostScheduler fc pc stor idx maddr max NewWdPostTask
        NewWdPostSubmitTask).submitTask =
      some ⟨⟨fc.maxWindowPoStGasFee⟩⟩ ∧
    (WindowPostScheduler fc pc stor idx maddr max NewWdPostTask
        NewWdPostSubmitTask).err = none ∧
    (activeTasks cfg).filter TaskKind.isWindowPost =
      (if cfg.enableWindowPost then
        [TaskKind.wdPost, TaskKind.wdPostSubmit, TaskKind.wdPostRecover]
      else []) := by
  refine ⟨rfl, rfl, rfl, ?_⟩
  rcases cfg with ⟨ewp, m, ewin, w⟩
  cases ewp <;> cases ewin <;> rfl

/-- C8: a worker registers exactly the task types its configuration enables:
each window-post task is in the registered list iff `EnableWindowPost` is
set, the winning-post task is in the list iff `EnableWinningPost` is set,
and no task of a disabled subsystem appears. -/
theorem c8_tasks_match_config (cfg : ProviderSubsystemsConfig) :
    (TaskKind.wdPost ∈ activeTasks cfg ↔ cfg.enableWindowPost = true) ∧
    (TaskKind.wdPostSubmit ∈ activeTasks cfg ↔
      cfg.enableWindowPost = true) ∧
    (TaskKind.wdPostRecover ∈ activeTasks cfg ↔
      cfg.enableWindowPost = true) ∧
    (TaskKind.winPost ∈ activeTasks cfg ↔ cfg.enableWinningPost = true) ∧
    (cfg.enableWindowPost = false →
      ∀ t ∈ activeTasks cfg, TaskKind.isWindowPost t = false) ∧
    (cfg.enableWinningPost = false → TaskKind.winPost ∉ activeTasks cfg) := by
  rcases cfg with ⟨ewp, m, ewin, w⟩
  cases ewp <;> cases ewin <;>
    simp [activeTasks, TaskKind.isWindowPost]

/-- Witness for C8: with window post disabled and winning post enabled, the
winning-post task is registered. -/
theorem c8_tasks_match_config_witness :
    TaskKind.winPost ∈ activeTasks ⟨false, 0, true, 2⟩ :=
  (c8_tasks_match_config ⟨false, 0, true, 2⟩).2.2.2.1.mpr rfl

/-- Membership in `firedSpan`: exactly the epochs strictly above the cursor
and at most the finalized height. -/
theorem mem_firedSpan {cursor fin e : Nat} :
    e ∈ firedSpan cursor fin ↔ cursor < e ∧ e ≤ fin := by
  unfold firedSpan
  simp only [List.mem_map, List.mem_range]
  constructor
  · rintro ⟨i, hi, rfl⟩
    omega
  · rintro ⟨h1, h2⟩
    exact ⟨e - cursor - 1, by omega, by omega⟩

/-- `firedSpan` is strictly ascending. -/
theorem firedSpan_sorted (cursor fin : Nat) :
    (firedSpan cursor fin).Pairwise (· < ·) := by
  unfold firedSpan
  exact List.pairwise_map.mpr
    ((List.pairwise_lt_range _).imp (fun hab => by omega))

/-- The epochs one scheduler step fires, with their heads. -/
theorem schedStep_fired_iff (headAt : Nat → ChainHead) (lag : Nat)
    (st : SchedCursor) (headHeight e : Nat) (h : ChainHead) :
    (e, h) ∈ (schedStep headAt lag st headHeight).2 ↔
      st.lastFired < e ∧ e ≤ headHeight - lag ∧ h = headAt e := by
  simp only [schedStep, List.mem_map]
  constructor
  · rintro ⟨e0, he0, heq⟩
    obtain ⟨h1, h2⟩ := mem_firedSpan.mp he0
    obtain ⟨rfl, rfl⟩ := Prod.mk.injEq .. ▸ And.intro
      (congrArg Prod.fst heq) (congrArg Prod.snd heq)
    exact ⟨h1, h2, rfl⟩
  · rintro ⟨h1, h2, rfl⟩
    exact ⟨e, mem_firedSpan.mpr ⟨h1, h2⟩, rfl⟩

/-- One step's fired list is strictly ascending in the epoch. -/
theorem schedStep_fired_sorted (headAt : Nat → ChainHead) (lag : Nat)
    (st : SchedCursor) (headHeight : Nat) :
    (schedStep headAt lag st headHeight).2.Pairwise
      (fun p q => p.1 < q.1) := by
  simp only [schedStep]
  exact List.pairwise_map.mpr
    ((firedSpan_sorted _ _).imp (fun hab => hab))

/-- One step's cursor advances to the newly finalized height. -/
theorem schedStep_cursor (headAt : Nat → ChainHead) (lag : Nat)
    (st : SchedCursor) (headHeight : Nat) :
    (schedStep headAt lag st headHeight).1.lastFired =
      Nat.max st.lastFired (headHeight - lag) := rfl

/-- The cursor never moves down across a run. -/
theorem schedRun_cursor_le (headAt : Nat → ChainHead) (lag : Nat)
    (heads : List Nat) (st : SchedCursor) :
    st.lastFired ≤ (schedRun headAt lag st heads).1.lastFired := by
  induction heads generalizing st with
  | nil => exact Nat.le_refl _
  | cons h hs ih =>
    calc st.lastFired
        ≤ (schedStep headAt lag st h).1.lastFired := by
          rw [schedStep_cursor]; exact Nat.le_max_left _ _
      _ ≤ _ := ih _

/-- Every pair a run emits fires an epoch strictly above the starting
cursor, at most the final cursor, and carries the head as of that epoch. -/
theorem schedRun_fired_mem (headAt : Nat → ChainHead) (lag : Nat)
    (heads : List Nat) (st : SchedCursor) :
    ∀ p ∈ (schedRun headAt lag st heads).2,
      st.lastFired < p.1 ∧
      p.1 ≤ (schedRun headAt lag st heads).1.lastFired ∧
      p.2 = headAt p.1 := by
  induction heads generalizing st with
  | nil => intro p hp; simp [schedRun] at hp
  | cons h hs ih =>
    intro p hp
    simp only [schedRun, List.mem_append] at hp
    rcases hp with hp | hp
    · obtain ⟨e, h0⟩ := p
      obtain ⟨h1, h2, h3⟩ := (schedStep_fired_iff headAt lag st h e h0).mp hp
      refine ⟨h1, ?_, h3⟩
      calc e ≤ (schedStep headAt lag st h).1.lastFired := by
            rw [schedStep_cursor]; exact le_trans h2 (Nat.le_max_right _ _)
        _ ≤ _ := schedRun_cursor_le headAt lag hs _
    · obtain ⟨h1, h2, h3⟩ := ih _ p hp
      refine ⟨lt_of_le_of_lt ?_ h1, h2, h3⟩
      rw [schedStep_cursor]
      exact Nat.le_max_left _ _

/-- Across a whole run, the emitted epochs are strictly ascending — so each
epoch fires at most once over the run, in order. -/
theorem schedRun_fired_sorted (headAt : Nat → ChainHead) (lag : Nat)
    (heads : List Nat) (st : SchedCursor) :
    (schedRun headAt lag st heads).2.Pairwise (fun p q => p.1 < q.1) := by
  induction heads generalizing st with
  | nil => exact List.Pairwise.nil
  | cons h hs ih =>
    simp only [schedRun]
    rw [List.pairwise_append]
    refine ⟨schedStep_fired_sorted headAt lag st h, ih _, ?_⟩
    intro p hp q hq
    obtain ⟨e, h0⟩ := p
    obtain ⟨h1, h2, _⟩ := (schedStep_fired_iff headAt lag st h e h0).mp hp
    have hq' := (schedRun_fired_mem headAt lag hs _ q hq).1
    rw [schedStep_cursor] at hq'
    calc e ≤ Nat.max st.lastFired (h - lag) :=
          le_trans h2 (Nat.le_max_right _ _)
      _ < q.1 := hq'

/-- C5: the Chain Scheduler fires each newly finalized epoch exactly once —
one step fires exactly the epochs strictly above the cursor up to the
finalized height, in strictly ascending order, each paired with the chain
head as of that epoch, and the epochs emitted across any sequence of
notifications are strictly ascending (no epoch fires twice); after a reorg
with common ancestor `A` the cursor drops to `A`, an epoch strictly above
`A` that had already fired fires again once re-finalized, and an epoch at or
below `A` does not fire again. -/
theorem c5_chain_scheduler_fires_once (headAt : Nat → ChainHead) (lag : Nat)
    (st : SchedCursor) (headHeight e : Nat) (h : ChainHead)
    (heads : List Nat) (A : Nat) :
    ((e, h) ∈ (schedStep headAt lag st headHeight).2 ↔
      st.lastFired < e ∧ e ≤ headHeight - lag ∧ h = headAt e) ∧
    (schedStep headAt lag st headHeight).2.Pairwise
      (fun p q => p.1 < q.1) ∧
    (schedRun headAt lag st heads).2.Pairwise (fun p q => p.1 < q.1) ∧
    (∀ p ∈ (schedRun headAt lag st heads).2, p.2 = headAt p.1) ∧
    (schedReorg st A).lastFired = Nat.min st.lastFired A ∧
    (A < e → e ≤ st.lastFired → e ≤ headHeight - lag →
      (e, headAt e) ∈ (schedStep headAt lag (schedReorg st A)
        headHeight).2) ∧
    (e ≤ A → e ≤ st.lastFired →
      (e, h) ∉ (schedStep headAt lag (schedReorg st A) headHeight).2) := by
  refine ⟨schedStep_fired_iff headAt lag st headHeight e h,
    schedStep_fired_sorted headAt lag st headHeight,
    schedRun_fired_sorted headAt lag heads st,
    fun p hp => (schedRun_fired_mem headAt lag heads st p hp).2.2,
    rfl, ?_, ?_⟩
  · intro hA he hfin
    refine (schedStep_fired_iff headAt lag _ headHeight e _).mpr
      ⟨?_, hfin, rfl⟩
    show Nat.min st.lastFired A < e
    exact lt_of_le_of_lt (Nat.min_le_right _ _) hA
  · intro hA he hmem
    have hlt : Nat.min st.lastFired A < e :=
      ((schedStep_fired_iff headAt lag _ headHeight e h).mp hmem).1
    exact absurd (lt_of_lt_of_le hlt (Nat.le_min.mpr ⟨he, hA⟩))
      (lt_irrefl _)

/-- Witness for C5: the spec's scenario — cursor at 9, finality lag 0, head
at height 12 fires epochs 10, 11, 12 in order with their heads; a reorg with
common ancestor 10 drops the cursor to 10; epoch 11 then fires again once
re-finalized, while epoch 10 does not. -/
theorem c5_chain_scheduler_fires_once_witness :
    (schedStep (fun e => 100 + e) 0 ⟨9⟩ 12).2 =
      [(10, 110), (11, 111), (12, 112)] ∧
    (schedReorg ⟨12⟩ 10).lastFired = 10 ∧
    (11, 111) ∈ (schedStep (fun e => 100 + e) 0 (schedReorg ⟨12⟩ 10) 12).2 ∧
    (10, 110) ∉ (schedStep (fun e => 100 + e) 0 (schedReorg ⟨12⟩ 10) 12).2 := by
  have h := c5_chain_scheduler_fires_once (fun e => 100 + e) 0 ⟨12⟩ 12 11
    111 [] 10
  have h10 := c5_chain_scheduler_fires_once (fun e => 100 + e) 0 ⟨12⟩ 12 10
    110 [] 10
  refine ⟨by decide, h.2.2.2.2.1.trans (by decide), ?_, ?_⟩
  · have := h.2.2.2.2.2.1 (by decide) (by decide) (by decide)
    simpa using this
  · exact h10.2.2.2.2.2.2 (by decide) (by decide)

end Lotus
